import Mathlib

/-!
Verification of the revenue ETL pipeline (src/python/revenue_pipeline.py).

Shallow embedding: pandas DataFrames become Lean lists of structures
(row-oriented, preserving row order); SQLite tables become lists; prices
and revenues are exact rationals (ℚ) with explicit 2-decimal rounding
modelling numpy round-half-even; quantities are integers.
-/

namespace Pipeline

/-- A row of the `product` table: `SELECT sku_id, sku_description, price`. -/
structure ProductRow where
  sku_id : String
  sku_description : String
  price : ℚ
deriving DecidableEq, Repr

/-- A row of the extracted sales data:
`SELECT sku_id, DATE(orderdate_utc) as order_date, sales`. -/
structure SalesRow where
  sku_id : String
  order_date : String
  sales : Int
deriving DecidableEq, Repr

/-- A spine row produced by `create_product_date_cartesian`:
columns `sku_id, date_id, price`. -/
structure SpineRow where
  sku_id : String
  date_id : String
  price : ℚ
deriving DecidableEq, Repr

/-- A row of the aggregated sales (`sales_agg` inside `calculate_revenue`):
columns `sku_id, order_date, sales`. -/
structure AggRow where
  sku_id : String
  order_date : String
  sales : Int
deriving DecidableEq, Repr

/-- A revenue row: columns `sku_id, date_id, price, sales, revenue`. -/
structure RevenueRow where
  sku_id : String
  date_id : String
  price : ℚ
  sales : Int
  revenue : ℚ
deriving DecidableEq, Repr

/-- Round a rational to the nearest integer, ties to even
(numpy/IEEE round-half-even, the rounding used by `Series.round`). -/
def roundHalfEven (q : ℚ) : ℤ :=
  let f := ⌊q⌋
  if q - f < 1/2 then f
  else if 1/2 < q - f then f + 1
  else if f % 2 = 0 then f else f + 1

/-- Round to 2 decimal places, ties to even: models `.round(2)` on the
`price * sales` column. -/
def round2 (q : ℚ) : ℚ := (roundHalfEven (q * 100) : ℚ) / 100

/-- The groupby key of a sales/aggregated row. -/
def salesKey (r : SalesRow) : String × String := (r.sku_id, r.order_date)

/-- The groupby key of an aggregated row. -/
def aggKey (r : AggRow) : String × String := (r.sku_id, r.order_date)

/-- Keys of a list of sales rows, in row order, first occurrence kept
(`List.dedup` keeps the first occurrence of each element). -/
def salesKeys (sales_df : List SalesRow) : List (String × String) :=
  (sales_df.map salesKey).dedup

/-- `sales_df.groupby(['sku_id', 'order_date'], as_index=False).agg({'sales': 'sum'})`:
partition the rows by (sku_id, order_date) and sum the `sales` column of each
group.  (pandas emits the groups sorted by key; no claim here depends on the
output order, only on which keys appear and their sums, so the embedding
lists the groups in first-occurrence order.)  The `if not sales_df.empty`
guard of the source is the identity here: an empty input has no keys, so the
result is empty either way. -/
def aggregate_sales (sales_df : List SalesRow) : List AggRow :=
  (salesKeys sales_df).map fun k =>
    { sku_id := k.1
      order_date := k.2
      sales := ((sales_df.filter fun r => salesKey r = k).map SalesRow.sales).sum }

/-- Build one revenue row from a spine row and a quantity:
`sales` filled (0 when unmatched), `revenue = (price * sales).round(2)`. -/
def mkRevenueRow (s : SpineRow) (qty : Int) : RevenueRow :=
  { sku_id := s.sku_id
    date_id := s.date_id
    price := s.price
    sales := qty
    revenue := round2 (s.price * qty) }

/-- The left merge of `calculate_revenue`:
`product_date_df.merge(sales_agg, left_on=['sku_id','date_id'],
right_on=['sku_id','order_date'], how='left')` followed by
`fillna(0)`, `astype(int)` and the revenue computation.  pandas left-merge
semantics: every left row produces one output row per matching right row,
and a single row with missing (then 0-filled) sales when no right row
matches; left row order is preserved. -/
def calculate_revenue_join (product_date_df : List SpineRow) (sales_agg : List AggRow) :
    List RevenueRow :=
  product_date_df.flatMap fun s =>
    let ms := sales_agg.filter fun a => a.sku_id = s.sku_id ∧ a.order_date = s.date_id
    if ms.isEmpty then [mkRevenueRow s 0] else ms.map fun a => mkRevenueRow s a.sales

/-- `calculate_revenue(product_date_df, sales_df)`: aggregate the raw sales,
then left-join onto the spine and compute revenue. -/
def calculate_revenue (product_date_df : List SpineRow) (sales_df : List SalesRow) :
    List RevenueRow :=
  calculate_revenue_join product_date_df (aggregate_sales sales_df)

/-- `create_product_date_cartesian(products_df, dates)` at the value level:
the `_key`-merge produces, for each product row in order, one row per date
in order; the result keeps columns `sku_id, date_id, price`.
(The in-place `_key` column mutation of the argument is modelled separately
at the frame level below.) -/
def create_product_date_cartesian (products_df : List ProductRow) (dates : List String) :
    List SpineRow :=
  products_df.flatMap fun p =>
    dates.map fun d => { sku_id := p.sku_id, date_id := d, price := p.price }

/-! ### Calendar dates and `generate_date_dimension`

`generate_date_dimension(start, end)` is
`pd.date_range(start_date, end_date).strftime('%Y-%m-%d').tolist()`:
with the default daily frequency it yields every calendar day from start
to end inclusive (empty when end precedes start), each formatted as a
zero-padded `YYYY-MM-DD` string.  Dates are embedded as proleptic-Gregorian
(year, month, day) triples; the validity predicate restricts years to
pandas-`Timestamp`-representable ones (`Timestamp.min` is in 1677,
`Timestamp.max` in 2262; outside those bounds the library call raises). -/

/-- A calendar date. -/
structure Date where
  year : Nat
  month : Nat
  day : Nat
deriving DecidableEq, Repr

/-- Gregorian leap-year rule. -/
def isLeap (y : Nat) : Bool := (y % 4 == 0 && y % 100 != 0) || y % 400 == 0

/-- Number of days in a month. -/
def monthLength (y m : Nat) : Nat :=
  match m with
  | 1 => 31 | 2 => if isLeap y then 29 else 28 | 3 => 31 | 4 => 30
  | 5 => 31 | 6 => 30 | 7 => 31 | 8 => 31
  | 9 => 30 | 10 => 31 | 11 => 30 | 12 => 31
  | _ => 0

/-- Days of the common year strictly before month `m` (month 13 closes
the table at 365). -/
def monthOffset (m : Nat) : Nat :=
  match m with
  | 1 => 0 | 2 => 31 | 3 => 59 | 4 => 90 | 5 => 120 | 6 => 151
  | 7 => 181 | 8 => 212 | 9 => 243 | 10 => 273 | 11 => 304 | 12 => 334
  | _ => 365

/-- 1-based day of the year. -/
def dayOfYear (d : Date) : Nat :=
  monthOffset d.month + (if 3 ≤ d.month ∧ isLeap d.year then 1 else 0) + d.day

/-- Days strictly before January 1 of year `y`, counted from year 1. -/
def yearStart (y : Nat) : Nat :=
  365 * (y - 1) + (y - 1) / 4 - (y - 1) / 100 + (y - 1) / 400

/-- Serial day number (proleptic Gregorian ordinal, January 1 of year 1
is day 1). -/
def toSerial (d : Date) : Nat := yearStart d.year + dayOfYear d

/-- A calendar date that the library call accepts: a real Gregorian date
whose year lies inside the pandas `Timestamp` range. -/
def Date.valid (d : Date) : Prop :=
  1678 ≤ d.year ∧ d.year ≤ 2261 ∧ 1 ≤ d.month ∧ d.month ≤ 12 ∧
    1 ≤ d.day ∧ d.day ≤ monthLength d.year d.month

instance (d : Date) : Decidable d.valid := by unfold Date.valid; infer_instance

/-- The calendar successor of a date. -/
def nextDay (d : Date) : Date :=
  if d.day < monthLength d.year d.month then ⟨d.year, d.month, d.day + 1⟩
  else if d.month < 12 then ⟨d.year, d.month + 1, 1⟩
  else ⟨d.year + 1, 1, 1⟩

/-- The decimal digit character of `n % 10`. -/
def digitChar (n : Nat) : Char :=
  match n % 10 with
  | 0 => '0' | 1 => '1' | 2 => '2' | 3 => '3' | 4 => '4'
  | 5 => '5' | 6 => '6' | 7 => '7' | 8 => '8' | _ => '9'

/-- `strftime('%Y-%m-%d')`: zero-padded 4-digit year, 2-digit month and
day, dash-separated. -/
def fmtDate (d : Date) : String :=
  ⟨[digitChar (d.year / 1000), digitChar (d.year / 100), digitChar (d.year / 10),
    digitChar d.year, '-', digitChar (d.month / 10), digitChar d.month, '-',
    digitChar (d.day / 10), digitChar d.day]⟩

/-- Checks the `YYYY-MM-DD` shape: ten characters, digits everywhere but
dashes at positions 4 and 7. -/
def isYMDString (s : String) : Bool :=
  match s.data with
  | [y1, y2, y3, y4, h1, m1, m2, h2, d1, d2] =>
    y1.isDigit && y2.isDigit && y3.isDigit && y4.isDigit && h1 == '-' &&
      m1.isDigit && m2.isDigit && h2 == '-' && d1.isDigit && d2.isDigit
  | _ => false

/-- The consecutive dates `d, d+1, …, d+n` (n+1 dates). -/
def dateListAux : Nat → Date → List Date
  | 0, d => [d]
  | n + 1, d => d :: dateListAux n (nextDay d)

/-- The dates of the inclusive range, as `pd.date_range` enumerates them:
day by day from start to end, empty when end precedes start. -/
def dateSeq (s e : Date) : List Date :=
  if toSerial s ≤ toSerial e then dateListAux (toSerial e - toSerial s) s else []

/-- `generate_date_dimension(start_date, end_date)`:
`pd.date_range(start_date, end_date).strftime('%Y-%m-%d').tolist()`. -/
def generate_date_dimension (start_date end_date : Date) : List String :=
  (dateSeq start_date end_date).map fmtDate

/-- `addDays n d` is the `n`-th calendar successor of `d`. -/
def addDays : Nat → Date → Date
  | 0, d => d
  | n + 1, d => addDays n (nextDay d)

/-! ### Frame-level model of `create_product_date_cartesian`

pandas DataFrames are mutable: `products_df['_key'] = 1` (line 55 of the
source) assigns a constant column **in place** on the caller's object.
To express this frame effect the function is also embedded at the level of
untyped frames (ordered column names plus rows of cells), and returns the
post-call state of its `products_df` argument alongside its result. -/

/-- A cell of an untyped frame. -/
inductive Cell where
  | str : String → Cell
  | num : ℚ → Cell
  | intv : Int → Cell
deriving DecidableEq, Repr

/-- A pandas DataFrame, row-oriented: ordered column names and rows of
cells (each row aligned with `cols`). -/
structure Frame where
  cols : List String
  rows : List (List Cell)
deriving DecidableEq, Repr

namespace Frame

/-- `df[name] = c` with a scalar: broadcast to every row; appends the
column when absent, overwrites it in place when present. -/
def setConstCol (df : Frame) (name : String) (c : Cell) : Frame :=
  if name ∈ df.cols then
    { cols := df.cols
      rows := df.rows.map fun r =>
        (df.cols.zip r).map fun p => if p.1 = name then c else p.2 }
  else
    { cols := df.cols ++ [name], rows := df.rows.map fun r => r ++ [c] }

/-- The value of column `name` in an aligned row. -/
def cellOf (df : Frame) (r : List Cell) (name : String) : Option Cell :=
  ((df.cols.zip r).find? fun p => p.1 = name).map Prod.snd

/-- Drop a column (`.drop(name, axis=1)`). -/
def dropCol (df : Frame) (name : String) : Frame :=
  { cols := df.cols.filter fun c => c ≠ name
    rows := df.rows.map fun r =>
      ((df.cols.zip r).filter fun p => p.1 ≠ name).map Prod.snd }

/-- Inner merge on one key column (`left.merge(right, on=key)`): for each
left row in order, one output row per right row with an equal key, keeping
the single key column; output columns are the left columns followed by the
right non-key columns. -/
def mergeOn (left right : Frame) (key : String) : Frame :=
  { cols := left.cols ++ right.cols.filter fun c => c ≠ key
    rows := left.rows.flatMap fun lr =>
      (right.rows.filter fun rr => cellOf right rr key = cellOf left lr key).map
        fun rr => lr ++ (((right.cols.zip rr).filter fun p => p.1 ≠ key).map Prod.snd) }

/-- Column selection `df[[names]]`. -/
def selectCols (df : Frame) (names : List String) : Frame :=
  { cols := names
    rows := df.rows.map fun r => names.map fun n => (cellOf df r n).getD (Cell.intv 0) }

end Frame

/-- `create_product_date_cartesian` at the frame level, returning
(result, state of the caller's `products_df` after the call): builds
`dates_df`, assigns the `_key` helper column on **both** frames (the
assignment on `products_df` mutates the argument), merges on `_key`,
drops `_key` from the merged frame only, and selects
`sku_id, date_id, price`. -/
def create_product_date_cartesian_frame (products_df : Frame) (dates : List String) :
    Frame × Frame :=
  let dates_df : Frame := { cols := ["date_id"], rows := dates.map fun d => [Cell.str d] }
  let products_df := products_df.setConstCol "_key" (Cell.intv 1)
  let dates_df := dates_df.setConstCol "_key" (Cell.intv 1)
  let cartesian := (products_df.mergeOn dates_df "_key").dropCol "_key"
  let result := cartesian.selectCols ["sku_id", "date_id", "price"]
  (result, products_df)

/-! ### Persistence, validation and the pipeline run -/

/-- A row of the persisted `revenue` table as the validator reads it back:
`sku_id`, `date_id` and `price` are the columns probed for SQL NULL. -/
structure DBRow where
  sku_id : Option String
  date_id : Option String
  price : Option ℚ
  sales : Int
  revenue : ℚ
deriving DecidableEq, Repr

/-- How a computed revenue row is persisted by `load_revenue_table`
(`DROP TABLE` / `CREATE TABLE` / `to_sql append`): all three NOT NULL
columns are present. -/
def toDBRow (r : RevenueRow) : DBRow :=
  { sku_id := some r.sku_id
    date_id := some r.date_id
    price := some r.price
    sales := r.sales
    revenue := r.revenue }

/-- `validate_results(conn, expected_products, expected_dates)`.
Three checks, combined with `all`:
row count `actual == expected_products * expected_dates`;
`SELECT SUM(CASE WHEN sku_id IS NULL OR date_id IS NULL OR price IS NULL
THEN 1 ELSE 0 END)` compared with `== 0` in Python — SQL `SUM` over an
empty table yields NULL, fetched as Python `None`, and `None == 0` is
`False`, so the comparison is modelled as `== some 0` on an `Option`;
`SELECT COUNT(*) … WHERE ABS(revenue - (price * sales)) > 0.01` compared
with `== 0` — a NULL `price` makes the SQL comparison NULL, so such a row
is never counted as an error. -/
def validate_results (rows : List DBRow) (expected_products expected_dates : Nat) : Bool :=
  let rowcount_ok := rows.length == expected_products * expected_dates
  let nulls : Option Nat :=
    if rows.isEmpty then none
    else some ((rows.map fun r =>
      if r.sku_id.isNone || r.date_id.isNone || r.price.isNone then 1 else 0).sum)
  let null_ok := nulls == some 0
  let errors := (rows.filter fun r =>
    match r.price with
    | some p => decide ((1 : ℚ)/100 < |r.revenue - p * (r.sales : ℚ)|)
    | none => false).length
  let calc_ok := errors == 0
  rowcount_ok && null_ok && calc_ok

/-- The database state seen by one run: the `product` and `sales` source
tables (`none` models a missing table, on which extraction raises) and the
`revenue` output table. -/
structure DB where
  product : Option (List ProductRow)
  sales : Option (List SalesRow)
  revenue : Option (List DBRow)
deriving DecidableEq, Repr

/-- Errors that abort the run (re-raised by `main` after logging). -/
inductive PipelineError where
  | noSuchTable : String → PipelineError
deriving DecidableEq, Repr

/-- SQLite `x BETWEEN lo AND hi` on TEXT values (byte-lexicographic,
which on `YYYY-MM-DD` strings is chronological order). -/
def betweenStr (lo hi x : String) : Bool := decide (lo ≤ x) && decide (x ≤ hi)

/-- The fixed reporting window of `main` (January 2025). -/
def START_DATE : Date := ⟨2025, 1, 1⟩

/-- End of the fixed reporting window of `main`. -/
def END_DATE : Date := ⟨2025, 1, 31⟩

/-- `main(db_path)`: connect, extract `product` and the window-filtered
`sales`, generate the date dimension, build the spine, calculate revenue,
load (full replace of the `revenue` table), validate, close.  The result
pairs the outcome (`ok` final database state, or the re-raised error) with
whether `conn.close()` ran: the source has no `finally`, so the close on
line 192 is reached only on the fully successful path — any exception
raised after the connection is acquired propagates without releasing it. -/
def main_model (db : DB) : Except PipelineError DB × Bool :=
  match db.product with
  | none => (Except.error (PipelineError.noSuchTable "product"), false)
  | some products_df =>
    match db.sales with
    | none => (Except.error (PipelineError.noSuchTable "sales"), false)
    | some sales_raw =>
      let sales_df := sales_raw.filter fun r =>
        betweenStr (fmtDate START_DATE) (fmtDate END_DATE) r.order_date
      let dates := generate_date_dimension START_DATE END_DATE
      let product_date_spine := create_product_date_cartesian products_df dates
      let revenue_df := calculate_revenue product_date_spine sales_df
      let persisted := revenue_df.map toDBRow
      let db' : DB := { db with revenue := some persisted }
      let _validation_passed := validate_results persisted products_df.length dates.length
      (Except.ok db', true)

/-- The rows one run persists into `revenue`, as a function of the two
source tables alone (the TRANSFORM phase of `main` followed by
`toDBRow`); definitionally the table `main_model` loads. -/
def pipelineRows (products_df : List ProductRow) (sales_raw : List SalesRow) : List DBRow :=
  let sales_df := sales_raw.filter fun r =>
    betweenStr (fmtDate START_DATE) (fmtDate END_DATE) r.order_date
  let dates := generate_date_dimension START_DATE END_DATE
  (calculate_revenue (create_product_date_cartesian products_df dates) sales_df).map toDBRow

/-! ## Calendar lemmas -/

theorem isLeap_iff (y : Nat) :
    isLeap y = true ↔ (y % 4 = 0 ∧ y % 100 ≠ 0) ∨ y % 400 = 0 := by
  simp [isLeap]

theorem yearStart_succ (y : Nat) (h : 1 ≤ y) :
    yearStart (y + 1) = yearStart y + 365 + (if isLeap y then 1 else 0) := by
  have hiff := isLeap_iff y
  obtain ⟨z, rfl⟩ : ∃ z, y = z + 1 := ⟨y - 1, by omega⟩
  simp only [yearStart, Nat.add_sub_cancel]
  by_cases hl : isLeap (z + 1) = true
  · rw [if_pos hl]
    rw [hiff] at hl
    clear hiff
    rcases hl with ⟨h4, h100⟩ | h400
    · omega
    · omega
  · rw [if_neg hl]
    rw [hiff] at hl
    push_neg at hl
    clear hiff
    obtain ⟨hA, h400⟩ := hl
    by_cases h4 : (z + 1) % 4 = 0
    · have h100 : (z + 1) % 100 = 0 := hA h4
      clear hA
      omega
    · clear hA
      have e4 : (z + 1) / 4 = z / 4 := by omega
      have e100 : (z + 1) / 100 = z / 100 := by omega
      have e400 : (z + 1) / 400 = z / 400 := by omega
      clear h4 h400
      omega

theorem dayOfYear_bounds (d : Date) (h : d.valid) :
    1 ≤ dayOfYear d ∧ dayOfYear d ≤ 365 + (if isLeap d.year then 1 else 0) := by
  obtain ⟨y, m, dd⟩ := d
  obtain ⟨h1, h2, h3, h4, h5, h6⟩ := h
  simp only at h3 h4 h5 h6
  simp only [dayOfYear]
  by_cases hl : isLeap y = true <;>
    interval_cases m <;>
      simp [monthLength, monthOffset, hl] at h6 ⊢ <;> omega

theorem toSerial_nextDay (d : Date) (h : d.valid) :
    toSerial (nextDay d) = toSerial d + 1 := by
  obtain ⟨y, m, dd⟩ := d
  obtain ⟨h1, h2, h3, h4, h5, h6⟩ := h
  simp only at h1 h2 h3 h4 h5 h6
  unfold nextDay
  split
  · simp only [toSerial, dayOfYear]
    omega
  · split
    · rename_i hlt hm
      simp only [toSerial, dayOfYear] at *
      have hdd : dd = monthLength y m := by omega
      subst hdd
      by_cases hl : isLeap y = true <;>
        interval_cases m <;> simp [monthLength, monthOffset, hl] at * <;> omega
    · rename_i hlt hm
      simp only at hlt hm
      have hm12 : m = 12 := by omega
      subst hm12
      simp only [monthLength] at h6 hlt
      have hdd : dd = 31 := by omega
      subst hdd
      have hys := yearStart_succ y (by omega)
      simp only [toSerial, dayOfYear, monthOffset]
      by_cases hl : isLeap y = true <;> simp [hl] at * <;> omega

theorem toSerial_bounds (d : Date) (h : d.valid) :
    yearStart d.year < toSerial d ∧ toSerial d ≤ yearStart (d.year + 1) := by
  have h' := h
  obtain ⟨h1, h2, h3, h4, h5, h6⟩ := h'
  have hb := dayOfYear_bounds d h
  have hys := yearStart_succ d.year (by omega)
  simp only [toSerial]
  by_cases hl : isLeap d.year = true <;> simp [hl] at hb hys <;> omega

theorem yearStart_mono (y1 y2 : Nat) (h0 : 1 ≤ y1) (h : y1 < y2) :
    yearStart y1 + 365 ≤ yearStart y2 := by
  induction y2 with
  | zero => omega
  | succ n ih =>
    rcases Nat.lt_or_ge y1 n with hlt | hge
    · have hih := ih hlt
      have hgap := yearStart_succ n (by omega)
      by_cases hl : isLeap n = true <;> simp [hl] at hgap <;> omega
    · have hy : y1 = n := by omega
      subst hy
      have hgap := yearStart_succ y1 h0
      by_cases hl : isLeap y1 = true <;> simp [hl] at hgap <;> omega

theorem year_le_of_serial_le (d e : Date) (hd : d.valid) (he : e.valid)
    (h : toSerial d ≤ toSerial e) : d.year ≤ e.year := by
  by_contra hgt
  push_neg at hgt
  have hbd := toSerial_bounds d hd
  have hbe := toSerial_bounds e he
  have h1 : e.year + 1 ≤ d.year := hgt
  have hm : yearStart (e.year + 1) ≤ yearStart d.year := by
    rcases Nat.eq_or_lt_of_le h1 with heq | hlt
    · rw [heq]
    · have := yearStart_mono (e.year + 1) d.year (by omega) hlt
      omega
  omega

set_option maxHeartbeats 2000000 in
theorem toSerial_inj (d e : Date) (hd : d.valid) (he : e.valid)
    (h : toSerial d = toSerial e) : d = e := by
  have hy : d.year = e.year :=
    Nat.le_antisymm (year_le_of_serial_le d e hd he (by omega))
      (year_le_of_serial_le e d he hd (by omega))
  obtain ⟨y1, m1, d1⟩ := d
  obtain ⟨y2, m2, d2⟩ := e
  simp only at hy
  subst hy
  obtain ⟨ha1, ha2, ha3, ha4, ha5, ha6⟩ := hd
  obtain ⟨hb1, hb2, hb3, hb4, hb5, hb6⟩ := he
  simp only at ha3 ha4 ha5 ha6 hb3 hb4 hb5 hb6
  simp only [toSerial, dayOfYear] at h
  simp only [Date.mk.injEq]
  refine And.intro trivial ?_
  by_cases hl : isLeap y1 = true <;>
    interval_cases m1 <;> interval_cases m2 <;>
      simp [monthOffset, monthLength, hl] at h ha6 hb6 ⊢ <;> omega

theorem monthLength_pos (y m : Nat) (h3 : 1 ≤ m) (h4 : m ≤ 12) :
    1 ≤ monthLength y m := by
  interval_cases m <;> simp [monthLength] <;> split <;> omega

theorem valid_nextDay (d e : Date) (hd : d.valid) (he : e.valid)
    (hlt : toSerial d < toSerial e) : (nextDay d).valid := by
  obtain ⟨y, m, dd⟩ := d
  have hd' := hd
  obtain ⟨h1, h2, h3, h4, h5, h6⟩ := hd'
  simp only at h1 h2 h3 h4 h5 h6
  simp only [nextDay, Date.valid]
  split
  · rename_i hdm
    simp only at hdm ⊢
    exact ⟨h1, h2, h3, h4, by omega, by omega⟩
  · split
    · rename_i hdm hm
      simp only at hdm hm ⊢
      refine ⟨h1, h2, by omega, by omega, le_refl 1, ?_⟩
      exact monthLength_pos y (m + 1) (by omega) (by omega)
    · rename_i hdm hm
      simp only at hdm hm ⊢
      have hm12 : m = 12 := by omega
      subst hm12
      simp only [monthLength] at h6 hdm
      have hdd : dd = 31 := by omega
      subst hdd
      have heq : toSerial ⟨y, 12, 31⟩ = yearStart (y + 1) := by
        have hys := yearStart_succ y (by omega)
        simp only [toSerial, dayOfYear, monthOffset]
        by_cases hl : isLeap y = true <;> simp [hl] at hys ⊢ <;> omega
      have hye : y + 1 ≤ e.year := by
        by_contra hc
        push_neg at hc
        have hbe := toSerial_bounds e he
        have hmle : yearStart (e.year + 1) ≤ yearStart (y + 1) := by
          rcases Nat.eq_or_lt_of_le (by omega : e.year + 1 ≤ y + 1) with heq2 | hlt2
          · rw [heq2]
          · have := yearStart_mono (e.year + 1) (y + 1) (by omega) hlt2
            omega
        omega
      have hy2 : e.year ≤ 2261 := he.2.1
      refine ⟨by omega, by omega, by omega, by omega, by omega, ?_⟩
      simp [monthLength]

/-! ## Rounding lemmas -/

theorem abs_roundHalfEven_sub (q : ℚ) : |(roundHalfEven q : ℚ) - q| ≤ 1/2 := by
  have hf1 : (⌊q⌋ : ℚ) ≤ q := Int.floor_le q
  have hf2 : q < ⌊q⌋ + 1 := Int.lt_floor_add_one q
  simp only [roundHalfEven]
  split
  · rename_i h
    rw [abs_le]
    constructor <;> push_cast at * <;> linarith
  · split
    · rename_i h1 h2
      rw [abs_le]
      constructor <;> push_cast at * <;> linarith
    · rename_i h1 h2
      have he : q - ⌊q⌋ = 1/2 := by linarith
      split <;> (rw [abs_le]; constructor <;> push_cast at * <;> linarith)

theorem roundHalfEven_nonneg (q : ℚ) (h : 0 ≤ q) : 0 ≤ roundHalfEven q := by
  have hf : (0 : ℤ) ≤ ⌊q⌋ := Int.floor_nonneg.mpr h
  simp only [roundHalfEven]
  split
  · exact hf
  · split
    · omega
    · split <;> omega

theorem abs_round2_sub (q : ℚ) : |round2 q - q| ≤ 1/100 := by
  have h := abs_roundHalfEven_sub (q * 100)
  unfold round2
  have hd : (roundHalfEven (q * 100) : ℚ) / 100 - q
      = ((roundHalfEven (q * 100) : ℚ) - q * 100) / 100 := by ring
  rw [hd, abs_div]
  rw [show |(100 : ℚ)| = 100 by norm_num]
  rw [div_le_iff₀ (by norm_num : (0:ℚ) < 100)]
  linarith

theorem round2_nonneg (q : ℚ) (h : 0 ≤ q) : 0 ≤ round2 q := by
  unfold round2
  have := roundHalfEven_nonneg (q * 100) (by positivity)
  positivity

/-! ## Date sequence lemmas -/

theorem length_dateListAux (n : Nat) (d : Date) : (dateListAux n d).length = n + 1 := by
  induction n generalizing d with
  | zero => rfl
  | succ k ih => simp [dateListAux, ih]

theorem getElem?_dateListAux (n : Nat) (d : Date) (i : Nat) (h : i ≤ n) :
    (dateListAux n d)[i]? = some (addDays i d) := by
  induction n generalizing d i with
  | zero =>
    interval_cases i
    rfl
  | succ k ih =>
    cases i with
    | zero => simp [dateListAux, addDays]
    | succ j =>
      simp only [dateListAux, List.getElem?_cons_succ]
      exact ih (nextDay d) j (by omega)

theorem addDays_succ_comm (n : Nat) (d : Date) :
    addDays (n + 1) d = nextDay (addDays n d) := by
  induction n generalizing d with
  | zero => rfl
  | succ k ih => exact ih (nextDay d)

theorem valid_addDays (n : Nat) (s e : Date) (hs : s.valid) (he : e.valid)
    (h : toSerial s + n ≤ toSerial e) :
    (addDays n s).valid ∧ toSerial (addDays n s) = toSerial s + n := by
  induction n generalizing s with
  | zero => exact ⟨hs, rfl⟩
  | succ k ih =>
    have hlt : toSerial s < toSerial e := by omega
    have hv := valid_nextDay s e hs he hlt
    have hser := toSerial_nextDay s hs
    have hk := ih (nextDay s) hv (by omega)
    exact ⟨hk.1, by rw [show addDays (k+1) s = addDays k (nextDay s) from rfl, hk.2]; omega⟩

theorem digitChar_isDigit (n : Nat) : (digitChar n).isDigit = true := by
  unfold digitChar
  have hk : n % 10 < 10 := Nat.mod_lt n (by norm_num)
  set k := n % 10 with hkdef
  interval_cases k <;> rfl

theorem isYMDString_fmtDate (d : Date) : isYMDString (fmtDate d) = true := by
  simp only [fmtDate, isYMDString]
  simp [digitChar_isDigit]

theorem getElem?_dateSeq (s e : Date) (hle : toSerial s ≤ toSerial e)
    (i : Nat) (h : i ≤ toSerial e - toSerial s) :
    (dateSeq s e)[i]? = some (addDays i s) := by
  unfold dateSeq
  rw [if_pos hle]
  exact getElem?_dateListAux _ s i h

theorem length_dateSeq (s e : Date) (hle : toSerial s ≤ toSerial e) :
    (dateSeq s e).length = (toSerial e - toSerial s) + 1 := by
  unfold dateSeq
  rw [if_pos hle]
  exact length_dateListAux _ s

theorem valid_dateSeq_entry (s e : Date) (hs : s.valid) (he : e.valid)
    (hle : toSerial s ≤ toSerial e) (i : Nat) (h : i ≤ toSerial e - toSerial s) :
    (addDays i s).valid :=
  (valid_addDays i s e hs he (by omega)).1

/-! ## Claim theorems -/

/-- C5: for every pair of (library-representable) calendar days with
start ≤ end, `generate_date_dimension` returns exactly
(end − start in days) + 1 entries, each a `YYYY-MM-DD` string, the first
equal to start, the last equal to end, and the underlying day sequence
advances by exactly one calendar day at each step (strictly increasing, no
gaps). -/
theorem C5_generate_date_dimension_range (s e : Date)
    (hs : s.valid) (he : e.valid) (hle : toSerial s ≤ toSerial e) :
    (generate_date_dimension s e).length = (toSerial e - toSerial s) + 1 ∧
    (generate_date_dimension s e).head? = some (fmtDate s) ∧
    (generate_date_dimension s e).getLast? = some (fmtDate e) ∧
    (∀ x ∈ generate_date_dimension s e, isYMDString x = true) ∧
    generate_date_dimension s e = (dateSeq s e).map fmtDate ∧
    (∀ i d1 d2, (dateSeq s e)[i]? = some d1 → (dateSeq s e)[i+1]? = some d2 →
      d2 = nextDay d1 ∧ toSerial d2 = toSerial d1 + 1) := by
  set n := toSerial e - toSerial s with hn
  have hlen_seq : (dateSeq s e).length = n + 1 := length_dateSeq s e hle
  have hlen : (generate_date_dimension s e).length = n + 1 := by
    simp [generate_date_dimension, hlen_seq]
  have hget : ∀ i, i ≤ n → (dateSeq s e)[i]? = some (addDays i s) :=
    fun i hi => getElem?_dateSeq s e hle i hi
  have hvalid : ∀ i, i ≤ n → (addDays i s).valid :=
    fun i hi => valid_dateSeq_entry s e hs he hle i hi
  have hlast_date : addDays n s = e := by
    have hser := (valid_addDays n s e hs he (by omega)).2
    exact toSerial_inj _ _ (hvalid n le_rfl) he (by omega)
  refine ⟨hlen, ?_, ?_, ?_, rfl, ?_⟩
  · rw [List.head?_eq_getElem?]
    simp only [generate_date_dimension, List.getElem?_map]
    rw [hget 0 (by omega)]
    rfl
  · rw [List.getLast?_eq_getElem?]
    simp only [generate_date_dimension, List.getElem?_map]
    rw [List.length_map, hlen_seq]
    simp only [Nat.add_sub_cancel]
    rw [hget n le_rfl, hlast_date]
    rfl
  · intro x hx
    simp only [generate_date_dimension, List.mem_map] at hx
    obtain ⟨d, hd, rfl⟩ := hx
    obtain ⟨i, hi, hdi⟩ := List.getElem_of_mem hd
    have hin : i ≤ n := by omega
    have : (dateSeq s e)[i]? = some d := by
      rw [List.getElem?_eq_getElem hi, hdi]
    rw [hget i hin] at this
    obtain rfl : addDays i s = d := by simpa using this
    exact isYMDString_fmtDate _
  · intro i d1 d2 h1 h2
    have hi1 : i + 1 < (dateSeq s e).length := by
      by_contra hc
      push_neg at hc
      rw [List.getElem?_eq_none hc] at h2
      exact Option.noConfusion h2
    have hin : i + 1 ≤ n := by omega
    rw [hget i (by omega)] at h1
    rw [hget (i+1) hin] at h2
    obtain rfl : addDays i s = d1 := by simpa using h1
    obtain rfl : addDays (i+1) s = d2 := by simpa using h2
    refine ⟨addDays_succ_comm i s, ?_⟩
    rw [addDays_succ_comm i s]
    exact toSerial_nextDay _ (hvalid i (by omega))

/-- C5 witness: the January 2025 window instantiates the range theorem. -/
theorem C5_witness :
    (⟨2025, 1, 1⟩ : Date).valid ∧ (⟨2025, 1, 31⟩ : Date).valid ∧
    ((generate_date_dimension ⟨2025, 1, 1⟩ ⟨2025, 1, 31⟩).length
        = (toSerial ⟨2025, 1, 31⟩ - toSerial ⟨2025, 1, 1⟩) + 1 ∧
      (generate_date_dimension ⟨2025, 1, 1⟩ ⟨2025, 1, 31⟩).head?
        = some (fmtDate ⟨2025, 1, 1⟩) ∧
      (generate_date_dimension ⟨2025, 1, 1⟩ ⟨2025, 1, 31⟩).getLast?
        = some (fmtDate ⟨2025, 1, 31⟩) ∧
      (∀ x ∈ generate_date_dimension ⟨2025, 1, 1⟩ ⟨2025, 1, 31⟩, isYMDString x = true) ∧
      generate_date_dimension ⟨2025, 1, 1⟩ ⟨2025, 1, 31⟩
        = (dateSeq ⟨2025, 1, 1⟩ ⟨2025, 1, 31⟩).map fmtDate ∧
      (∀ i d1 d2, (dateSeq ⟨2025, 1, 1⟩ ⟨2025, 1, 31⟩)[i]? = some d1 →
        (dateSeq ⟨2025, 1, 1⟩ ⟨2025, 1, 31⟩)[i+1]? = some d2 →
        d2 = nextDay d1 ∧ toSerial d2 = toSerial d1 + 1)) :=
  ⟨by decide, by decide,
    C5_generate_date_dimension_range ⟨2025, 1, 1⟩ ⟨2025, 1, 31⟩
      (by decide) (by decide) (by decide)⟩

/-- C2 counterexample: with end (2025-01-01) preceding start (2025-01-02),
`generate_date_dimension` returns the empty list — a normal return value,
not a raised `InvalidRangeError` (no such error exists in the code). -/
theorem C2_counterexample :
    generate_date_dimension ⟨2025, 1, 2⟩ ⟨2025, 1, 1⟩ = [] := by decide

/-- C2 (amended): for every pair of valid calendar days with end preceding
start, `generate_date_dimension` returns the empty list normally; no
exception is raised (`pd.date_range` yields an empty index and the
source defines no `InvalidRangeError`). -/
theorem C2_amended_empty_on_inverted_range (s e : Date)
    (h : toSerial e < toSerial s) :
    generate_date_dimension s e = [] := by
  unfold generate_date_dimension dateSeq
  rw [if_neg (by omega)]
  rfl

/-- C2 witness: the amended statement applied at a concrete inverted
range. -/
theorem C2_amended_witness :
    toSerial ⟨2025, 1, 1⟩ < toSerial ⟨2025, 1, 2⟩ ∧
      generate_date_dimension ⟨2025, 1, 2⟩ ⟨2025, 1, 1⟩ = [] :=
  ⟨by decide, C2_amended_empty_on_inverted_range ⟨2025, 1, 2⟩ ⟨2025, 1, 1⟩ (by decide)⟩

theorem countP_flatMap {α β : Type} (l : List α) (f : α → List β) (p : β → Bool) :
    (l.flatMap f).countP p = (l.map fun a => (f a).countP p).sum := by
  induction l with
  | nil => rfl
  | cons a t ih => simp [List.flatMap_cons, List.countP_append, ih]

theorem spine_inner_countP (p : ProductRow) (d : String) (D : List String) (hD : D.Nodup)
    (hd : d ∈ D) :
    ((D.map fun x => ({ sku_id := p.sku_id, date_id := x, price := p.price } : SpineRow)).countP
      fun r => r.sku_id = p.sku_id ∧ r.date_id = d ∧ r.price = p.price) = 1 := by
  rw [List.countP_map]
  have hc : ∀ x ∈ D,
      (((fun r : SpineRow => decide (r.sku_id = p.sku_id ∧ r.date_id = d ∧ r.price = p.price)) ∘
        fun x => ({ sku_id := p.sku_id, date_id := x, price := p.price } : SpineRow)) x = true
        ↔ (x == d) = true) := by
    intro x _
    by_cases h : x = d <;> simp [Function.comp, h]
  rw [List.countP_congr hc]
  have := List.count_eq_one_of_mem hD hd
  simpa [List.count] using this

theorem spine_inner_countP_zero (q p : ProductRow) (d : String) (D : List String)
    (hne : q.sku_id ≠ p.sku_id) :
    ((D.map fun x => ({ sku_id := q.sku_id, date_id := x, price := q.price } : SpineRow)).countP
      fun r => r.sku_id = p.sku_id ∧ r.date_id = d ∧ r.price = p.price) = 0 := by
  rw [List.countP_eq_zero]
  intro r hr
  simp only [List.mem_map] at hr
  obtain ⟨x, _, rfl⟩ := hr
  simp [hne]

/-- C3: the Spine Builder returns exactly |P|·|D| rows; when product
identifiers and dates are unique, every (product, date) pair occurs
exactly once, carrying that product's unit price; every output row comes
from some input product and date; empty products or dates give an empty
output (no failure). -/
theorem C3_spine_cartesian (P : List ProductRow) (D : List String)
    (hP : (P.map ProductRow.sku_id).Nodup) (hD : D.Nodup) :
    (create_product_date_cartesian P D).length = P.length * D.length ∧
    (∀ p ∈ P, ∀ d ∈ D,
      ((create_product_date_cartesian P D).countP
        fun r => r.sku_id = p.sku_id ∧ r.date_id = d ∧ r.price = p.price) = 1) ∧
    (∀ r ∈ create_product_date_cartesian P D,
      ∃ p ∈ P, r.sku_id = p.sku_id ∧ r.price = p.price ∧ r.date_id ∈ D) ∧
    (P = [] ∨ D = [] → create_product_date_cartesian P D = []) := by
  refine ⟨?_, ?_, ?_, ?_⟩
  · rw [create_product_date_cartesian, List.length_flatMap]
    clear hP
    induction P with
    | nil => simp
    | cons a t ih =>
      simp only [List.map_cons, List.sum_cons, Function.comp_apply, List.length_map,
        List.length_cons, ih]
      ring
  · intro p hp d hd
    rw [create_product_date_cartesian, countP_flatMap]
    induction P with
    | nil => simp at hp
    | cons q t ih =>
      simp only [List.map_cons, List.sum_cons]
      simp only [List.map_cons, List.nodup_cons] at hP
      rcases List.mem_cons.mp hp with rfl | hpt
      · rw [spine_inner_countP p d D hD hd]
        have hz : (t.map fun q' =>
            ((D.map fun x => ({ sku_id := q'.sku_id, date_id := x, price := q'.price } : SpineRow)).countP
              fun r => r.sku_id = p.sku_id ∧ r.date_id = d ∧ r.price = p.price)).sum = 0 := by
          rw [List.sum_eq_zero]
          intro x hx
          simp only [List.mem_map] at hx
          obtain ⟨q', hq', rfl⟩ := hx
          have hne : q'.sku_id ≠ p.sku_id := by
            intro he
            exact hP.1 (by rw [← he]; exact List.mem_map_of_mem ProductRow.sku_id hq')
          exact spine_inner_countP_zero q' p d D hne
        omega
      · have hne : q.sku_id ≠ p.sku_id := by
          intro he
          exact hP.1 (by rw [he]; exact List.mem_map_of_mem ProductRow.sku_id hpt)
        rw [spine_inner_countP_zero q p d D hne]
        have := ih hP.2 hpt
        omega
  · intro r hr
    simp only [create_product_date_cartesian, List.mem_flatMap, List.mem_map] at hr
    obtain ⟨p, hp, x, hx, rfl⟩ := hr
    exact ⟨p, hp, rfl, rfl, hx⟩
  · rintro (rfl | rfl)
    · rfl
    · simp [create_product_date_cartesian]

/-- C3 witness: three products and two dates (the unit test's scenario)
instantiate the spine theorem. -/
theorem C3_witness :
    (([⟨"1", "A", 10⟩, ⟨"2", "B", 20⟩, ⟨"3", "C", 30⟩] : List ProductRow).map
        ProductRow.sku_id).Nodup ∧
    (["2025-01-01", "2025-01-02"] : List String).Nodup ∧
    ((create_product_date_cartesian [⟨"1", "A", 10⟩, ⟨"2", "B", 20⟩, ⟨"3", "C", 30⟩]
        ["2025-01-01", "2025-01-02"]).length = 3 * 2 ∧
      (∀ p ∈ ([⟨"1", "A", 10⟩, ⟨"2", "B", 20⟩, ⟨"3", "C", 30⟩] : List ProductRow),
        ∀ d ∈ (["2025-01-01", "2025-01-02"] : List String),
        ((create_product_date_cartesian [⟨"1", "A", 10⟩, ⟨"2", "B", 20⟩, ⟨"3", "C", 30⟩]
          ["2025-01-01", "2025-01-02"]).countP
          fun r => r.sku_id = p.sku_id ∧ r.date_id = d ∧ r.price = p.price) = 1) ∧
      (∀ r ∈ create_product_date_cartesian [⟨"1", "A", 10⟩, ⟨"2", "B", 20⟩, ⟨"3", "C", 30⟩]
          ["2025-01-01", "2025-01-02"],
        ∃ p ∈ ([⟨"1", "A", 10⟩, ⟨"2", "B", 20⟩, ⟨"3", "C", 30⟩] : List ProductRow),
          r.sku_id = p.sku_id ∧ r.price = p.price ∧
            r.date_id ∈ (["2025-01-01", "2025-01-02"] : List String)) ∧
      (([⟨"1", "A", 10⟩, ⟨"2", "B", 20⟩, ⟨"3", "C", 30⟩] : List ProductRow) = [] ∨
          (["2025-01-01", "2025-01-02"] : List String) = [] →
        create_product_date_cartesian [⟨"1", "A", 10⟩, ⟨"2", "B", 20⟩, ⟨"3", "C", 30⟩]
          ["2025-01-01", "2025-01-02"] = [])) := by
  refine ⟨by decide, by decide, ?_⟩
  have hlen : ([⟨"1", "A", 10⟩, ⟨"2", "B", 20⟩, ⟨"3", "C", 30⟩] : List ProductRow).length = 3 :=
    rfl
  have := C3_spine_cartesian [⟨"1", "A", 10⟩, ⟨"2", "B", 20⟩, ⟨"3", "C", 30⟩]
    ["2025-01-01", "2025-01-02"] (by decide) (by decide)
  simpa using this

theorem aggregate_sales_map_key (sales_df : List SalesRow) :
    (aggregate_sales sales_df).map aggKey = salesKeys sales_df := by
  rw [aggregate_sales, List.map_map]
  have : (aggKey ∘ fun k : String × String =>
      ({ sku_id := k.1, order_date := k.2,
         sales := ((sales_df.filter fun r => salesKey r = k).map SalesRow.sales).sum } : AggRow))
      = id := by
    funext k
    simp [aggKey]
  rw [this, List.map_id]

theorem aggregate_sales_keys_nodup (sales_df : List SalesRow) :
    ((aggregate_sales sales_df).map aggKey).Nodup := by
  rw [aggregate_sales_map_key]
  exact List.nodup_dedup _

/-- C4: sales aggregation emits each (product identifier, day) key of the
input exactly once, with quantity the exact integer sum of that key's
transaction quantities; keys with no transaction never appear; empty input
gives empty output (no failure). -/
theorem C4_aggregate_sales_groups (sales_df : List SalesRow) :
    ((aggregate_sales sales_df).map aggKey).Nodup ∧
    (∀ k, k ∈ (aggregate_sales sales_df).map aggKey ↔ k ∈ sales_df.map salesKey) ∧
    (∀ a ∈ aggregate_sales sales_df,
      a.sales = ((sales_df.filter fun r => salesKey r = aggKey a).map SalesRow.sales).sum) ∧
    (sales_df = [] → aggregate_sales sales_df = []) := by
  refine ⟨aggregate_sales_keys_nodup sales_df, ?_, ?_, ?_⟩
  · intro k
    rw [aggregate_sales_map_key]
    exact List.mem_dedup
  · intro a ha
    rw [aggregate_sales] at ha
    simp only [List.mem_map] at ha
    obtain ⟨k, _, rfl⟩ := ha
    rfl
  · rintro rfl
    rfl

/-- C4 witness: two same-day transactions for one product and one for
another day instantiate the aggregation theorem. -/
theorem C4_witness :
    (((aggregate_sales [⟨"1", "2025-01-01", 3⟩, ⟨"1", "2025-01-01", 4⟩,
        ⟨"2", "2025-01-02", 5⟩]).map aggKey).Nodup ∧
      (∀ k, k ∈ (aggregate_sales [⟨"1", "2025-01-01", 3⟩, ⟨"1", "2025-01-01", 4⟩,
          ⟨"2", "2025-01-02", 5⟩]).map aggKey ↔
        k ∈ ([⟨"1", "2025-01-01", 3⟩, ⟨"1", "2025-01-01", 4⟩,
          ⟨"2", "2025-01-02", 5⟩] : List SalesRow).map salesKey) ∧
      (∀ a ∈ aggregate_sales [⟨"1", "2025-01-01", 3⟩, ⟨"1", "2025-01-01", 4⟩,
          ⟨"2", "2025-01-02", 5⟩],
        a.sales = ((([⟨"1", "2025-01-01", 3⟩, ⟨"1", "2025-01-01", 4⟩,
          ⟨"2", "2025-01-02", 5⟩] : List SalesRow).filter
            fun r => salesKey r = aggKey a).map SalesRow.sales).sum) ∧
      (([⟨"1", "2025-01-01", 3⟩, ⟨"1", "2025-01-01", 4⟩,
          ⟨"2", "2025-01-02", 5⟩] : List SalesRow) = [] →
        aggregate_sales [⟨"1", "2025-01-01", 3⟩, ⟨"1", "2025-01-01", 4⟩,
          ⟨"2", "2025-01-02", 5⟩] = [])) :=
  C4_aggregate_sales_groups _

theorem filter_key_of_nodup (agg : List AggRow) (h : (agg.map aggKey).Nodup)
    (sku dt : String) :
    ((agg.filter fun a => a.sku_id = sku ∧ a.order_date = dt) = [] ∧
      agg.find? (fun a => a.sku_id = sku ∧ a.order_date = dt) = none) ∨
    (∃ a, (agg.filter fun a => a.sku_id = sku ∧ a.order_date = dt) = [a] ∧
      agg.find? (fun a => a.sku_id = sku ∧ a.order_date = dt) = some a) := by
  induction agg with
  | nil => exact Or.inl ⟨rfl, rfl⟩
  | cons b t ih =>
    simp only [List.map_cons, List.nodup_cons] at h
    by_cases hb : b.sku_id = sku ∧ b.order_date = dt
    · refine Or.inr ⟨b, ?_, ?_⟩
      · rw [List.filter_cons_of_pos (by simpa using hb)]
        have ht : (t.filter fun a => a.sku_id = sku ∧ a.order_date = dt) = [] := by
          rw [List.filter_eq_nil_iff]
          intro a ha
          simp only [decide_eq_true_eq]
          intro hc
          apply h.1
          have : aggKey a = aggKey b := by
            simp [aggKey, hb.1, hb.2, hc.1, hc.2]
          rw [← this]
          exact List.mem_map_of_mem aggKey ha
        rw [ht]
      · rw [List.find?_cons_of_pos _ (by simpa using hb)]
    · have hskip : (b :: t).filter (fun a => a.sku_id = sku ∧ a.order_date = dt)
          = t.filter fun a => a.sku_id = sku ∧ a.order_date = dt :=
        List.filter_cons_of_neg (by simpa using hb)
      have hfind : (b :: t).find? (fun a => a.sku_id = sku ∧ a.order_date = dt)
          = t.find? fun a => a.sku_id = sku ∧ a.order_date = dt :=
        List.find?_cons_of_neg _ (by simpa using hb)
      rw [hskip, hfind]
      exact ih h.2

theorem calculate_revenue_join_eq_map (spine : List SpineRow) (agg : List AggRow)
    (h : (agg.map aggKey).Nodup) :
    calculate_revenue_join spine agg = spine.map fun s =>
      match agg.find? (fun a => a.sku_id = s.sku_id ∧ a.order_date = s.date_id) with
      | some a => mkRevenueRow s a.sales
      | none => mkRevenueRow s 0 := by
  induction spine with
  | nil => rfl
  | cons s t ih =>
    simp only [calculate_revenue_join, List.flatMap_cons, List.map_cons] at *
    rw [ih]
    rcases filter_key_of_nodup agg h s.sku_id s.date_id with ⟨hnil, hfind⟩ | ⟨a, hfa, hfind⟩
    · rw [hnil, hfind]
      rfl
    · rw [hfa, hfind]
      rfl

/-- C1: against any aggregated-sales table with unique (product, day) keys,
the left join of the Revenue Calculator emits exactly one row per spine
row in order — the row's quantity is the matching aggregated quantity, or
0 when no aggregated row matches, and its revenue is
round(unit_price × quantity, 2); `calculate_revenue` itself is this join
applied to the aggregated raw sales. -/
theorem C1_calculate_revenue_rows (spine : List SpineRow) (agg : List AggRow)
    (h : (agg.map aggKey).Nodup) :
    (calculate_revenue_join spine agg).length = spine.length ∧
    calculate_revenue_join spine agg = (spine.map fun s =>
      match agg.find? (fun a => a.sku_id = s.sku_id ∧ a.order_date = s.date_id) with
      | some a => { sku_id := s.sku_id, date_id := s.date_id, price := s.price,
                    sales := a.sales, revenue := round2 (s.price * a.sales) }
      | none => { sku_id := s.sku_id, date_id := s.date_id, price := s.price,
                  sales := 0, revenue := round2 (s.price * (0 : Int)) }) ∧
    (∀ sales_df, calculate_revenue spine sales_df
      = calculate_revenue_join spine (aggregate_sales sales_df)) := by
  have hmap := calculate_revenue_join_eq_map spine agg h
  refine ⟨?_, ?_, fun _ => rfl⟩
  · rw [hmap, List.length_map]
  · rw [hmap]
    apply List.map_congr_left
    intro s _
    cases agg.find? fun a => a.sku_id = s.sku_id ∧ a.order_date = s.date_id <;> rfl

/-- C1 witness: the unit test's two spine rows and one aggregated row
instantiate the theorem. -/
theorem C1_witness :
    (([⟨"1", "2025-01-01", 5⟩] : List AggRow).map aggKey).Nodup ∧
    ((calculate_revenue_join
        [⟨"1", "2025-01-01", 10⟩, ⟨"1", "2025-01-02", 10⟩]
        [⟨"1", "2025-01-01", 5⟩]).length
      = ([⟨"1", "2025-01-01", 10⟩, ⟨"1", "2025-01-02", 10⟩] : List SpineRow).length ∧
    calculate_revenue_join [⟨"1", "2025-01-01", 10⟩, ⟨"1", "2025-01-02", 10⟩]
        [⟨"1", "2025-01-01", 5⟩]
      = (([⟨"1", "2025-01-01", 10⟩, ⟨"1", "2025-01-02", 10⟩] : List SpineRow).map fun s =>
        match ([⟨"1", "2025-01-01", 5⟩] : List AggRow).find?
            (fun a => a.sku_id = s.sku_id ∧ a.order_date = s.date_id) with
        | some a => { sku_id := s.sku_id, date_id := s.date_id, price := s.price,
                      sales := a.sales, revenue := round2 (s.price * a.sales) }
        | none => { sku_id := s.sku_id, date_id := s.date_id, price := s.price,
                    sales := 0, revenue := round2 (s.price * (0 : Int)) }) ∧
    (∀ sales_df, calculate_revenue [⟨"1", "2025-01-01", 10⟩, ⟨"1", "2025-01-02", 10⟩] sales_df
      = calculate_revenue_join [⟨"1", "2025-01-01", 10⟩, ⟨"1", "2025-01-02", 10⟩]
          (aggregate_sales sales_df))) :=
  ⟨by decide, C1_calculate_revenue_rows _ _ (by decide)⟩

theorem mem_calculate_revenue (spine : List SpineRow) (sales_df : List SalesRow)
    (r : RevenueRow) (hr : r ∈ calculate_revenue spine sales_df) :
    ∃ s ∈ spine, ∃ q : Int,
      r = mkRevenueRow s q ∧
      (q = 0 ∨ ∃ a ∈ aggregate_sales sales_df, q = a.sales) := by
  rw [calculate_revenue,
    calculate_revenue_join_eq_map spine _ (aggregate_sales_keys_nodup sales_df)] at hr
  simp only [List.mem_map] at hr
  obtain ⟨s, hs, hmk⟩ := hr
  rcases hfind : (aggregate_sales sales_df).find?
      fun a => a.sku_id = s.sku_id ∧ a.order_date = s.date_id with _ | a
  · rw [hfind] at hmk
    exact ⟨s, hs, 0, hmk.symm, Or.inl rfl⟩
  · rw [hfind] at hmk
    exact ⟨s, hs, a.sales, hmk.symm,
      Or.inr ⟨a, List.mem_of_find?_eq_some hfind, rfl⟩⟩

theorem aggregate_sales_nonneg (sales_df : List SalesRow)
    (hq : ∀ r ∈ sales_df, 0 ≤ r.sales) (a : AggRow) (ha : a ∈ aggregate_sales sales_df) :
    0 ≤ a.sales := by
  rw [aggregate_sales] at ha
  simp only [List.mem_map] at ha
  obtain ⟨k, _, rfl⟩ := ha
  apply List.sum_nonneg
  intro x hx
  simp only [List.mem_map] at hx
  obtain ⟨rr, hrr, rfl⟩ := hx
  exact hq rr (List.mem_of_mem_filter hrr)

/-- C6: with non-negative unit prices on the spine and non-negative
transaction quantities, every revenue row is non-negative, within 0.01 of
price × quantity, and there is exactly one revenue row per spine row. -/
theorem C6_revenue_invariants (spine : List SpineRow) (sales_df : List SalesRow)
    (hprice : ∀ s ∈ spine, 0 ≤ s.price) (hq : ∀ r ∈ sales_df, 0 ≤ r.sales) :
    (calculate_revenue spine sales_df).length = spine.length ∧
    ∀ r ∈ calculate_revenue spine sales_df,
      0 ≤ r.revenue ∧ |r.revenue - r.price * (r.sales : ℚ)| ≤ 1/100 := by
  constructor
  · rw [calculate_revenue,
      calculate_revenue_join_eq_map spine _ (aggregate_sales_keys_nodup sales_df),
      List.length_map]
  · intro r hr
    obtain ⟨s, hs, q, rfl, hcase⟩ := mem_calculate_revenue spine sales_df r hr
    have hq0 : (0 : Int) ≤ q := by
      rcases hcase with rfl | ⟨a, ha, rfl⟩
      · exact le_refl 0
      · exact aggregate_sales_nonneg sales_df hq a ha
    have hx : (0 : ℚ) ≤ s.price * (q : ℚ) := by
      apply mul_nonneg (hprice s hs)
      exact_mod_cast hq0
    simp only [mkRevenueRow]
    constructor
    · exact round2_nonneg _ hx
    · exact abs_round2_sub (s.price * (q : ℚ))

/-- C6 witness: the end-to-end test scenario (one product, two days, one
sale of 5 units at price 10) instantiates the invariants theorem. -/
theorem C6_witness :
    (∀ s ∈ ([⟨"1", "2025-01-01", 10⟩, ⟨"1", "2025-01-02", 10⟩] : List SpineRow), 0 ≤ s.price) ∧
    (∀ r ∈ ([⟨"1", "2025-01-01", 5⟩] : List SalesRow), 0 ≤ r.sales) ∧
    ((calculate_revenue [⟨"1", "2025-01-01", 10⟩, ⟨"1", "2025-01-02", 10⟩]
        [⟨"1", "2025-01-01", 5⟩]).length
      = ([⟨"1", "2025-01-01", 10⟩, ⟨"1", "2025-01-02", 10⟩] : List SpineRow).length ∧
    ∀ r ∈ calculate_revenue [⟨"1", "2025-01-01", 10⟩, ⟨"1", "2025-01-02", 10⟩]
        [⟨"1", "2025-01-01", 5⟩],
      0 ≤ r.revenue ∧ |r.revenue - r.price * (r.sales : ℚ)| ≤ 1/100) :=
  ⟨by decide, by decide,
    C6_revenue_invariants _ _ (by decide) (by decide)⟩

/-- C7 counterexample: on an empty persisted table with expected counts
0 × 0 all three stated conditions hold (row count matches, no row is null,
every row is within tolerance — both vacuously), yet `validate_results`
returns failure: SQL `SUM` over zero rows is NULL and Python `None == 0`
is `False`, so the NULL check fails on an empty table. -/
theorem C7_counterexample :
    ([] : List DBRow).length = 0 * 0 ∧
    (∀ r ∈ ([] : List DBRow), r.sku_id ≠ none ∧ r.date_id ≠ none ∧ r.price ≠ none) ∧
    (∀ r ∈ ([] : List DBRow), ∀ pr, r.price = some pr →
      |r.revenue - pr * (r.sales : ℚ)| ≤ 1/100) ∧
    validate_results [] 0 0 = false := by
  refine ⟨rfl, ?_, ?_, rfl⟩
  · intro r hr
    simp at hr
  · intro r hr
    simp at hr

/-- C7 (amended): `validate_results` passes iff the row count equals
products × days, the table is non-empty with no null product identifier,
day or price, and every row with a price is within 0.01 of
price × quantity (the non-emptiness condition is forced by the NULL-check
comparison, which fails on an empty table); and a failing validation is
non-fatal — for any present source tables the run still completes
successfully, with the load already committed, whatever the validation
outcome. -/
theorem C7_amended_validator (rows : List DBRow) (p d : Nat) :
    (validate_results rows p d = true ↔
      (rows.length = p * d ∧ rows ≠ [] ∧
        (∀ r ∈ rows, r.sku_id ≠ none ∧ r.date_id ≠ none ∧ r.price ≠ none) ∧
        (∀ r ∈ rows, ∀ pr, r.price = some pr →
          |r.revenue - pr * (r.sales : ℚ)| ≤ 1/100))) ∧
    (∀ prods sales rev0, main_model ⟨some prods, some sales, rev0⟩
      = (Except.ok ⟨some prods, some sales, some (pipelineRows prods sales)⟩, true)) := by
  constructor
  · have haux1 : (if rows.isEmpty then (none : Option Nat)
        else some ((rows.map fun r =>
          if r.sku_id.isNone || r.date_id.isNone || r.price.isNone then 1 else 0).sum))
        = some 0 ↔
        (rows ≠ [] ∧ ∀ r ∈ rows, r.sku_id ≠ none ∧ r.date_id ≠ none ∧ r.price ≠ none) := by
      by_cases he : rows.isEmpty
      · rw [if_pos he]
        simp [List.isEmpty_iff.mp he]
      · rw [if_neg he]
        rw [Option.some.injEq]
        rw [List.sum_eq_zero_iff]
        constructor
        · intro hz
          refine ⟨by simpa [List.isEmpty_iff] using he, ?_⟩
          intro r hr
          have := hz _ (List.mem_map_of_mem _ hr)
          by_contra hc
          have hcond : (r.sku_id.isNone || r.date_id.isNone || r.price.isNone) = true := by
            simp only [not_and_or, not_not] at hc
            rcases hc with h1 | h1 | h1 <;> simp [h1, Option.isNone_iff_eq_none]
          rw [if_pos hcond] at this
          exact one_ne_zero this
        · intro hpair
          intro x hx
          simp only [List.mem_map] at hx
          obtain ⟨r, hr, rfl⟩ := hx
          obtain ⟨n1, n2, n3⟩ := hpair.2 r hr
          have h1 : r.sku_id.isNone = false := by
            cases hx1 : r.sku_id
            · exact absurd hx1 n1
            · rfl
          have h2 : r.date_id.isNone = false := by
            cases hx2 : r.date_id
            · exact absurd hx2 n2
            · rfl
          have h3 : r.price.isNone = false := by
            cases hx3 : r.price
            · exact absurd hx3 n3
            · rfl
          simp [h1, h2, h3]
    have haux2 : ((rows.filter fun r =>
        match r.price with
        | some pr => decide ((1 : ℚ)/100 < |r.revenue - pr * (r.sales : ℚ)|)
        | none => false).length = 0) ↔
        (∀ r ∈ rows, ∀ pr, r.price = some pr →
          |r.revenue - pr * (r.sales : ℚ)| ≤ 1/100) := by
      rw [List.length_eq_zero, List.filter_eq_nil_iff]
      constructor
      · intro hall r hr pr hpr
        have := hall r hr
        rw [hpr] at this
        simpa [not_lt] using this
      · intro hall r hr
        rcases hp : r.price with _ | pr
        · simp [hp]
        · have hle := hall r hr pr hp
          simp only [hp, decide_eq_true_eq, not_lt]
          exact hle
    simp only [validate_results, Bool.and_eq_true, beq_iff_eq]
    rw [haux1, haux2]
    tauto
  · intro prods sales rev0
    rfl

/-- C7 witness: the iff applied to the empty table (validation fails
there), and the non-fatality equation at concrete source tables whose
validation indeed fails — the run completes nonetheless. -/
theorem C7_amended_witness :
    ((validate_results [] 0 0 = true ↔
      (([] : List DBRow).length = 0 * 0 ∧ ([] : List DBRow) ≠ [] ∧
        (∀ r ∈ ([] : List DBRow), r.sku_id ≠ none ∧ r.date_id ≠ none ∧ r.price ≠ none) ∧
        (∀ r ∈ ([] : List DBRow), ∀ pr, r.price = some pr →
          |r.revenue - pr * (r.sales : ℚ)| ≤ 1/100))) ∧
    (∀ prods sales rev0, main_model ⟨some prods, some sales, rev0⟩
      = (Except.ok ⟨some prods, some sales, some (pipelineRows prods sales)⟩, true))) :=
  C7_amended_validator [] 0 0

/-- C8: the pipeline is idempotent — a second run against unchanged
source tables replaces the persisted `revenue` table with exactly the same
rows, leaving the final database state identical. -/
theorem C8_pipeline_idempotent (prods : List ProductRow) (sales : List SalesRow)
    (rev0 : Option (List DBRow)) (db1 db2 : DB)
    (h1 : main_model ⟨some prods, some sales, rev0⟩ = (Except.ok db1, true))
    (h2 : main_model db1 = (Except.ok db2, true)) :
    db2.revenue = db1.revenue ∧ db2 = db1 := by
  have e1 : main_model ⟨some prods, some sales, rev0⟩
      = (Except.ok ⟨some prods, some sales, some (pipelineRows prods sales)⟩, true) := rfl
  rw [e1] at h1
  have hdb1 : db1 = ⟨some prods, some sales, some (pipelineRows prods sales)⟩ := by
    have := congrArg Prod.fst h1
    simpa using this.symm
  subst hdb1
  have e2 : main_model ⟨some prods, some sales, some (pipelineRows prods sales)⟩
      = (Except.ok ⟨some prods, some sales, some (pipelineRows prods sales)⟩, true) := rfl
  rw [e2] at h2
  have hdb2 : db2 = ⟨some prods, some sales, some (pipelineRows prods sales)⟩ := by
    have := congrArg Prod.fst h2
    simpa using this.symm
  subst hdb2
  exact ⟨rfl, rfl⟩

/-- C8 witness: both runs computed on concrete (empty) source tables. -/
theorem C8_witness :
    main_model ⟨some [], some [], none⟩
      = (Except.ok ⟨some [], some [], some (pipelineRows [] [])⟩, true) ∧
    main_model ⟨some [], some [], some (pipelineRows [] [])⟩
      = (Except.ok ⟨some [], some [], some (pipelineRows [] [])⟩, true) ∧
    (⟨some [], some [], some (pipelineRows [] [])⟩ : DB).revenue
        = (⟨some [], some [], some (pipelineRows [] [])⟩ : DB).revenue ∧
    (⟨some [], some [], some (pipelineRows [] [])⟩ : DB)
        = ⟨some [], some [], some (pipelineRows [] [])⟩ := by
  refine ⟨rfl, rfl, ?_⟩
  exact C8_pipeline_idempotent [] [] none _ _ rfl rfl

/-- C9: the claim that the storage connection is released on every exit
path fails in the code — `main` has no `finally`, so on the exceptional
path (here: extraction fails because the `product` table is missing) the
error propagates with the connection still open (released flag `false`).
The code contradicts the design requirement of §5 of the spec. -/
theorem C9_connection_not_released_on_error :
    main_model ⟨none, some [], none⟩
      = (Except.error (PipelineError.noSuchTable "product"), false) := rfl

/-- C10: `create_product_date_cartesian` mutates its `products_df`
argument — whenever `_key` was not a column before the call, afterwards
the caller's frame has gained a trailing `_key` column holding 1 in every
row, so the input frame is not left unchanged. -/
theorem C10_mutates_products_df (products_df : Frame) (dates : List String)
    (h : "_key" ∉ products_df.cols) :
    (create_product_date_cartesian_frame products_df dates).2.cols
        = products_df.cols ++ ["_key"] ∧
    (create_product_date_cartesian_frame products_df dates).2.rows
        = products_df.rows.map (fun r => r ++ [Cell.intv 1]) ∧
    (create_product_date_cartesian_frame products_df dates).2 ≠ products_df := by
  have hset : (create_product_date_cartesian_frame products_df dates).2
      = { cols := products_df.cols ++ ["_key"]
          rows := products_df.rows.map fun r => r ++ [Cell.intv 1] } := by
    show products_df.setConstCol "_key" (Cell.intv 1) = _
    rw [Frame.setConstCol, if_neg h]
  refine ⟨by rw [hset], by rw [hset], ?_⟩
  rw [hset]
  intro hc
  have := congrArg (fun f => f.cols.length) hc
  simp at this

/-- C10 witness: a one-product frame with the extracted columns gains the
`_key` column. -/
theorem C10_witness :
    "_key" ∉ (⟨["sku_id", "sku_description", "price"],
        [[Cell.str "1", Cell.str "A", Cell.num 10]]⟩ : Frame).cols ∧
    ((create_product_date_cartesian_frame
        ⟨["sku_id", "sku_description", "price"], [[Cell.str "1", Cell.str "A", Cell.num 10]]⟩
        ["2025-01-01"]).2.cols
      = (⟨["sku_id", "sku_description", "price"],
          [[Cell.str "1", Cell.str "A", Cell.num 10]]⟩ : Frame).cols ++ ["_key"] ∧
    (create_product_date_cartesian_frame
        ⟨["sku_id", "sku_description", "price"], [[Cell.str "1", Cell.str "A", Cell.num 10]]⟩
        ["2025-01-01"]).2.rows
      = (⟨["sku_id", "sku_description", "price"],
          [[Cell.str "1", Cell.str "A", Cell.num 10]]⟩ : Frame).rows.map
            (fun r => r ++ [Cell.intv 1]) ∧
    (create_product_date_cartesian_frame
        ⟨["sku_id", "sku_description", "price"], [[Cell.str "1", Cell.str "A", Cell.num 10]]⟩
        ["2025-01-01"]).2
      ≠ (⟨["sku_id", "sku_description", "price"],
          [[Cell.str "1", Cell.str "A", Cell.num 10]]⟩ : Frame)) :=
  ⟨by decide, C10_mutates_products_df _ _ (by decide)⟩

end Pipeline
